import Mathlib

/-!
Shallow embedding of the Telegram media-converter bot (credit ledger,
conversion sessions, conversion pipeline, storage sweep, referral bonus).

The Firestore document store is modelled as explicit state (`DB`): user
documents as a list of `User` records, the `conversions` collection as a
list of `ConversionDoc` records whose optional fields model Firestore
fields that are absent on some documents (a Firestore `where` filter on a
missing field never matches the document), and the storage channel as the
list of message ids currently present.  Async/await code becomes explicit
state passing; a Firestore transaction throw becomes an `Except.error`
that carries no new state (nothing is committed).  External I/O (Telegram
send, download, ffmpeg) is injected as boolean success flags.
-/

namespace TgBot

/-- A document of the `users` collection (userService). -/
structure User where
  user_id : Nat
  credits : Int
  referrals : Int
  usage_count : Int
  username : Option String := none
  referrer_id : Option Nat := none
  created_at : Nat
  last_activity : Nat
deriving DecidableEq, Repr

/-- A document of the `conversions` collection.  Optional fields model
Firestore fields missing from a document: stage-time documents (written by
`uploadToStorageChannel`) carry `message_id`, `chat_id`, `file_id`,
`expires_at` but no `user_id`; settle-time documents (written by
`convertHandler`) carry `user_id`, `original_file_id`,
`converted_file_id`, `format` but no `expires_at`. -/
structure ConversionDoc where
  message_id : Option Nat := none
  chat_id : Option Int := none
  file_id : Option String := none
  user_id : Option Nat := none
  original_file_id : Option String := none
  converted_file_id : Option String := none
  format : Option String := none
  created_at : Nat
  expires_at : Option Nat := none
deriving DecidableEq, Repr

/-- The whole mutable state: Firestore (`users`, `conversions`) plus the
storage channel (list of message ids present) and a fresh message-id
counter for Telegram sends. -/
structure DB where
  users : List User := []
  conversions : List ConversionDoc := []
  channelMsgs : List Nat := []
  nextMsgId : Nat := 0
deriving DecidableEq, Repr

/-- Look up a user document by id (`usersRef.doc(String(userId)).get()`). -/
def findUser (db : DB) (uid : Nat) : Option User :=
  db.users.find? (fun u => u.user_id == uid)

/-- Overwrite the user document with id `u.user_id` (a Firestore
`update`/`set` on an existing document). -/
def setUser (db : DB) (u : User) : DB :=
  { db with users := db.users.map (fun v => if v.user_id == u.user_id then u else v) }

/-- Optional extra fields passed to `getOrCreateUser` (the `userData`
spread in the source). -/
structure UserData where
  username : Option String := none
  referrer_id : Option Nat := none
deriving DecidableEq, Repr

/-- Embeds `getOrCreateUser(userId, userData)` from the user service: if the user
document exists, bump `last_activity` and return the data as read (the
source returns `userDoc.data()` from before the update); otherwise create
the document with 10 initial credits and the given extra data. -/
def getOrCreateUser (uid : Nat) (ud : UserData) (now : Nat) (db : DB) : User × DB :=
  match findUser db uid with
  | some u => (u, setUser db { u with last_activity := now })
  | none =>
      let newUser : User :=
        { user_id := uid, credits := 10, referrals := 0, usage_count := 0,
          username := ud.username, referrer_id := ud.referrer_id,
          last_activity := now, created_at := now }
      (newUser, { db with users := db.users ++ [newUser] })

/-- The two errors `updateCredits` can throw. -/
inductive CreditErr
  | userNotFound
  | insufficientCredits
deriving DecidableEq, Repr

/-- Embeds `updateCredits(userId, amount)`: a Firestore transaction that reads
the balance, computes `newCredits = credits + amount`, throws
`User not found` when the document is absent, throws
`Insufficient credits` when `newCredits < 0`, and otherwise commits
`newCredits` (with a fresh `last_activity`) and returns it.  A thrown
transaction commits nothing, so the error constructor carries no state. -/
def updateCredits (uid : Nat) (amount : Int) (now : Nat) (db : DB) :
    Except CreditErr (Int × DB) :=
  match findUser db uid with
  | none => .error .userNotFound
  | some u =>
      let newCredits := u.credits + amount
      if newCredits < 0 then .error .insufficientCredits
      else .ok (newCredits,
        setUser db { u with credits := newCredits, last_activity := now })

/-- JavaScript falsiness of the parsed referrer id: `null`/`NaN` (here
`none`) and `0` are falsy. -/
def jsFalsyRef : Option Nat → Bool
  | none => true
  | some r => r == 0

/-- Embeds `processReferral(referrerId, newUserId)`: returns `false` (and changes
nothing) when the referrer id is falsy, equals the new user id, or names a
non-existent user; otherwise increments the `referrals` counter of the
referrer and adds the fixed `REFERRAL_BONUS` to the credits of the
referrer. -/
def processReferral (rid : Option Nat) (newUserId : Nat) (bonus : Int) (now : Nat)
    (db : DB) : Bool × DB :=
  if jsFalsyRef rid || rid == some newUserId then (false, db)
  else
    match rid with
    | none => (false, db)
    | some r =>
        match findUser db r with
        | none => (false, db)
        | some u =>
            (true, setUser db
              { u with referrals := u.referrals + 1, credits := u.credits + bonus,
                       last_activity := now })

/-- The filter of the daily-usage query: `user_id == userId` and
`created_at >= today`.  A document with no `user_id` field never matches
the equality filter. -/
def dailyMatch (uid todayStart : Nat) (d : ConversionDoc) : Bool :=
  d.user_id == some uid && decide (todayStart ≤ d.created_at)

/-- Number of conversion documents matching the daily-usage query. -/
def dailyCount (uid todayStart : Nat) (db : DB) : Nat :=
  (db.conversions.filter (dailyMatch uid todayStart)).length

/-- Embeds `checkDailyLimit(userId)`: `false` for a non-existent user; otherwise
whether the conversion count of the user for today has reached
`DAILY_LIMIT`. -/
def checkDailyLimit (uid : Nat) (dailyLimit : Nat) (todayStart : Nat) (db : DB) : Bool :=
  match findUser db uid with
  | none => false
  | some _ => decide (dailyLimit ≤ dailyCount uid todayStart db)

/-- The statistics object returned by `getStats()`. -/
structure Stats where
  totalUsers : Nat
  activeUsers : Nat
  totalConversions : Nat
deriving DecidableEq, Repr

/-- Embeds `getStats()`: total user documents, users active since `sevenDaysAgo`,
and the size of the whole `conversions` collection. -/
def getStats (sevenDaysAgo : Nat) (db : DB) : Stats :=
  { totalUsers := db.users.length,
    activeUsers := (db.users.filter (fun u => decide (sevenDaysAgo ≤ u.last_activity))).length,
    totalConversions := db.conversions.length }

/-- Embeds `resetUser(userId)`: `false` for a non-existent user; otherwise resets
credits to 10 and the referral and usage counters to 0. -/
def resetUser (uid : Nat) (now : Nat) (db : DB) : Bool × DB :=
  match findUser db uid with
  | none => (false, db)
  | some u =>
      (true, setUser db
        { u with credits := 10, referrals := 0, usage_count := 0, last_activity := now })

/-! Media service (`src/services/mediaService.js`). -/

/-- Remove the first occurrence of a character from a character list
(the JS `format.replace` with a string pattern replaces only the
first occurrence). -/
def jsReplaceFirst (c : Char) : List Char → List Char
  | [] => []
  | x :: xs => if x == c then xs else x :: jsReplaceFirst c xs

/-- Parse the leading decimal-digit prefix of a character list; `none`
models the `NaN` result of JS `parseInt` on a string with no leading
digits. -/
def parseDigits : List Char → Nat → Nat
  | [], acc => acc
  | x :: xs, acc =>
      if x.isDigit then parseDigits xs (acc * 10 + (x.toNat - 48)) else acc

/-- JS `parseInt` restricted to the nonnegative decimal strings the bot
feeds it: the leading digit prefix, or `none` (`NaN`) when there is no
leading digit. -/
def jsParseInt (s : String) : Option Nat :=
  match s.toList with
  | [] => none
  | x :: xs => if x.isDigit then some (parseDigits (x :: xs) 0) else none

/-- The ffmpeg settings `convertVideo` builds: whether the video stream is
dropped, the codecs, the audio bitrate, the output size and container. -/
structure VideoSettings where
  noVideo : Bool
  videoCodec : Option String
  audioCodec : String
  audioBitrate : Nat
  width : Option Nat
  height : Option Nat
  container : String
deriving DecidableEq, Repr

/-- Embeds `convertVideo(inputPath, format)` in terms of the ffmpeg command it
configures: for `mp3` drop the video stream and encode mp3 audio at 192;
otherwise the height is the `parseInt` of the format with the first
letter p removed,
`width = Math.floor(height * 16 / 9)`, H.264 video at that size with aac
audio at 128 in an mp4 container. -/
def convertVideo (format : String) : VideoSettings :=
  if format == "mp3" then
    { noVideo := true, videoCodec := none, audioCodec := "libmp3lame",
      audioBitrate := 192, width := none, height := none, container := "mp3" }
  else
    match jsParseInt (String.mk (jsReplaceFirst 'p' format.toList)) with
    | some h =>
        { noVideo := false, videoCodec := some "libx264", audioCodec := "aac",
          audioBitrate := 128, width := some (h * 16 / 9), height := some h,
          container := "mp4" }
    | none =>
        { noVideo := false, videoCodec := some "libx264", audioCodec := "aac",
          audioBitrate := 128, width := none, height := none, container := "mp4" }

/-- The stage-time conversion document `uploadToStorageChannel` writes:
`message_id`, `chat_id`, `file_id`, `created_at` and
`expires_at = now + FILE_DELETE_AFTER_HOURS` in milliseconds — and no
`user_id`. -/
def stageDocOf (chatId : Int) (stagedFileId : String) (deleteAfterHours now m : Nat) :
    ConversionDoc :=
  { message_id := some m, chat_id := some chatId, file_id := some stagedFileId,
    created_at := now, expires_at := some (now + deleteAfterHours * 60 * 60 * 1000) }

/-- Embeds `uploadToStorageChannel(filePath, caption)`: send the file to the
storage channel (success injected as `uploadOk`; `stagedFileId` is the
file id Telegram assigns to the sent message) and, on success, append the
stage-time conversion document.  On send failure nothing is written and
the error propagates. -/
def uploadToStorageChannel (uploadOk : Bool) (chatId : Int) (stagedFileId : String)
    (deleteAfterHours now : Nat) (db : DB) : Except Unit (Nat × DB) :=
  if uploadOk then
    let m := db.nextMsgId
    .ok (m, { db with channelMsgs := db.channelMsgs ++ [m], nextMsgId := m + 1,
                      conversions := db.conversions ++
                        [stageDocOf chatId stagedFileId deleteAfterHours now m] })
  else .error ()

/-- The filter of the sweep query `where(expires_at <= now)`: a
document with no `expires_at` field never matches. -/
def isExpired (now : Nat) (d : ConversionDoc) : Bool :=
  match d.expires_at with
  | some t => decide (t ≤ now)
  | none => false

/-- Embeds `cleanupOldFiles()`: select all conversion documents with
`expires_at <= now`; for each, attempt the Telegram `deleteMessage`
(failure is caught and only logged; `remoteOk` injects per-message
success) and push the metadata delete unconditionally; return the number
of expired documents found. -/
def cleanupOldFiles (remoteOk : Nat → Bool) (now : Nat) (db : DB) : Nat × DB :=
  let expired := db.conversions.filter (isExpired now)
  if expired.isEmpty then (0, db)
  else
    (expired.length,
      { db with
          conversions := db.conversions.filter (fun d => !(isExpired now d)),
          channelMsgs := db.channelMsgs.filter
            (fun m => !(remoteOk m && expired.any (fun d => d.message_id == some m))) })

/-! Handlers (`src/handlers/commandHandlers.js` and `src/utils/helpers.js`). -/

/-- Embeds `startHandler(ctx)`: parse the referrer id from a `ref_` start
payload (`rid` is the parse result, `none` for `NaN`), run
`getOrCreateUser` with the username and referrer id fields, and then call
`processReferral` when `referrerId && user.created_at` — in the source
`user.created_at` is a Firestore timestamp object, truthy for created and
pre-existing users alike, so the condition reduces to the truthiness of
the referrer id. -/
def startHandler (uid : Nat) (username : String) (rid : Option Nat) (bonus : Int)
    (now : Nat) (db : DB) : DB :=
  let db1 := (getOrCreateUser uid { username := some username, referrer_id := rid } now db).2
  if !(jsFalsyRef rid) then (processReferral rid uid bonus now db1).2 else db1

/-- The media kind recorded in a session (`fileType` is only ever set to
video or audio by the upload handlers). -/
inductive FileType
  | video
  | audio
deriving DecidableEq, Repr

/-- The record `ctx.session.fileInfo` as set by the upload handlers. -/
structure FileInfo where
  fileId : String
  fileType : FileType
  fileName : String
  fileSize : Nat
deriving DecidableEq, Repr

/-- Embeds `isFileSizeValid(fileSize)`: at most `MAX_FILE_SIZE_MB` mebibytes. -/
def isFileSizeValid (maxFileSizeMB fileSize : Nat) : Bool :=
  decide (fileSize ≤ maxFileSizeMB * 1024 * 1024)

/-- Outcome of an upload handler (videoHandler/audioHandler). -/
inductive UploadOutcome
  | insufficientCreditsMsg
  | dailyLimitMsg
  | fileTooLargeMsg
  | formatsShown
deriving DecidableEq, Repr

/-- Embeds `videoHandler(ctx)`: get-or-create the user; reject when
`user.credits < CREDIT_PER_CONVERSION`; reject when `checkDailyLimit`;
reject when the file is too large; otherwise store the file info in the
session and show the format keyboard.  Rejections leave the session and
the conversions collection as they were. -/
def videoHandler (uid : Nat) (cost : Int) (dailyLimit maxFileSizeMB : Nat)
    (fileId fileName : String) (fileSize : Nat) (todayStart now : Nat)
    (session : Option FileInfo) (db : DB) : UploadOutcome × Option FileInfo × DB :=
  let r := getOrCreateUser uid {} now db
  let user := r.1
  let db1 := r.2
  if user.credits < cost then (.insufficientCreditsMsg, session, db1)
  else if checkDailyLimit uid dailyLimit todayStart db1 then (.dailyLimitMsg, session, db1)
  else if !(isFileSizeValid maxFileSizeMB fileSize) then (.fileTooLargeMsg, session, db1)
  else (.formatsShown, some ⟨fileId, .video, fileName, fileSize⟩, db1)

/-- Embeds `audioHandler(ctx)`: identical to `videoHandler` except the
stored file type is audio. -/
def audioHandler (uid : Nat) (cost : Int) (dailyLimit maxFileSizeMB : Nat)
    (fileId fileName : String) (fileSize : Nat) (todayStart now : Nat)
    (session : Option FileInfo) (db : DB) : UploadOutcome × Option FileInfo × DB :=
  let r := getOrCreateUser uid {} now db
  let user := r.1
  let db1 := r.2
  if user.credits < cost then (.insufficientCreditsMsg, session, db1)
  else if checkDailyLimit uid dailyLimit todayStart db1 then (.dailyLimitMsg, session, db1)
  else if !(isFileSizeValid maxFileSizeMB fileSize) then (.fileTooLargeMsg, session, db1)
  else (.formatsShown, some ⟨fileId, .audio, fileName, fileSize⟩, db1)

/-- The underlying cause of a failed conversion (`catch` in
`convertHandler` replies with one generic message; this records which
throw reached it). -/
inductive PipeError
  | downloadFailed
  | convertFailed
  | uploadFailed
  | userNotFound
  | insufficientCredits
deriving DecidableEq, Repr

/-- Result of `convertHandler`: the session-expired reply, success, or
the generic failure reply with its recorded cause. -/
inductive ConvertResult
  | sessionExpired
  | success
  | failed (e : PipeError)
deriving DecidableEq, Repr

/-- Map a thrown credit error to the pipeline failure it causes. -/
def ofCreditErr : CreditErr → PipeError
  | .userNotFound => .userNotFound
  | .insufficientCredits => .insufficientCredits

/-- Success flags for the external steps of one pipeline invocation,
plus the file id Telegram assigns to the staged message and the storage
channel id. -/
structure PipeEnv where
  downloadOk : Bool
  convertOk : Bool
  uploadOk : Bool
  stagedFileId : String
  chatId : Int
deriving DecidableEq, Repr

/-- The `usage_count: increment(1)` update `convertHandler` performs. -/
def incUsage (uid : Nat) (db : DB) : DB :=
  let bump := fun (u : User) =>
    if u.user_id == uid then { u with usage_count := u.usage_count + 1 } else u
  { db with users := db.users.map bump }

/-- The settle-time conversion document `convertHandler` logs:
`user_id`, the original and converted file ids, `format`, `created_at` —
and no `expires_at`. -/
def settleDocOf (uid : Nat) (originalFileId convertedFileId fmt : String) (now : Nat) :
    ConversionDoc :=
  { user_id := some uid, original_file_id := some originalFileId,
    converted_file_id := some convertedFileId, format := some fmt, created_at := now }

/-- Embeds `convertHandler(ctx)` (the format-selection callback): get-or-create
the user; reply session-expired when `ctx.session.fileInfo` is absent;
download and convert (external, injected success); upload to the storage
channel (which writes the stage-time record); debit
`CREDIT_PER_CONVERSION` via `updateCredits`; increment `usage_count`;
append the settle-time conversion document (`user_id`, file ids,
`format`, `created_at`, no `expires_at`); read the balance for the reply
caption via `updateCredits(userId, 0)`; and only then clear the session.
Any throw lands in the `catch`, which replies with a generic failure and
leaves the session as it was. -/
def convertHandler (uid : Nat) (fmt : String) (cost : Int) (deleteAfterHours now : Nat)
    (env : PipeEnv) (session : Option FileInfo) (db : DB) :
    ConvertResult × Option FileInfo × DB :=
  let db1 := (getOrCreateUser uid {} now db).2
  match session with
  | none => (.sessionExpired, none, db1)
  | some fi =>
      if !env.downloadOk then (.failed .downloadFailed, some fi, db1)
      else if !env.convertOk then (.failed .convertFailed, some fi, db1)
      else
        match uploadToStorageChannel env.uploadOk env.chatId env.stagedFileId
            deleteAfterHours now db1 with
        | .error _ => (.failed .uploadFailed, some fi, db1)
        | .ok staged =>
            let db2 := staged.2
            match updateCredits uid (-cost) now db2 with
            | .error e => (.failed (ofCreditErr e), some fi, db2)
            | .ok settled =>
                let db3 := settled.2
                let db4 := incUsage uid db3
                let db5 := { db4 with conversions :=
                  db4.conversions ++ [settleDocOf uid fi.fileId env.stagedFileId fmt now] }
                match updateCredits uid 0 now db5 with
                | .error e => (.failed (ofCreditErr e), some fi, db5)
                | .ok reread => (.success, none, reread.2)

/-! Operation sequences over the user store, for the ledger invariant. -/

/-- One state-mutating operation on the user store: account creation or
refresh (`getOrCreateUser`), a debit/credit (`updateCredits`, the state
kept unchanged when the transaction throws), a referral award
(`processReferral`), or an admin reset (`resetUser`). -/
inductive LedgerOp
  | create (uid : Nat)
  | adjust (uid : Nat) (amount : Int)
  | refer (rid : Option Nat) (uid : Nat)
  | reset (uid : Nat)
deriving DecidableEq, Repr

/-- Apply one ledger operation to the state. -/
def applyOp (bonus : Int) (now : Nat) (db : DB) : LedgerOp → DB
  | .create uid => (getOrCreateUser uid {} now db).2
  | .adjust uid amount =>
      match updateCredits uid amount now db with
      | .ok p => p.2
      | .error _ => db
  | .refer rid uid => (processReferral rid uid bonus now db).2
  | .reset uid => (resetUser uid now db).2

/-- Apply a sequence of ledger operations left to right. -/
def applyOps (bonus : Int) (now : Nat) (ops : List LedgerOp) (db : DB) : DB :=
  ops.foldl (applyOp bonus now) db

/-- Every stored balance is nonnegative. -/
def creditsNonneg (db : DB) : Prop :=
  ∀ u ∈ db.users, 0 ≤ u.credits

/-- The sum of the amounts of the debit/credit calls in `amounts` that
commit (are not rejected) when run in order against `db`. -/
def appliedSum (uid : Nat) (now : Nat) (db : DB) : List Int → Int
  | [] => 0
  | a :: rest =>
      match updateCredits uid a now db with
      | .ok p => a + appliedSum uid now p.2 rest
      | .error _ => appliedSum uid now db rest

/-- The stored balance of a user, when the account exists. -/
def userCredits (db : DB) (uid : Nat) : Option Int :=
  (findUser db uid).map (fun u => u.credits)

/-! Helper lemmas about lookups and updates in the embedded store. -/

theorem findUser_id {db : DB} {uid : Nat} {u : User} (h : findUser db uid = some u) :
    u.user_id = uid := by
  unfold findUser at h
  simpa using List.find?_some h

theorem findUser_mem {db : DB} {uid : Nat} {u : User} (h : findUser db uid = some u) :
    u ∈ db.users := by
  unfold findUser at h
  exact List.mem_of_find?_eq_some h

theorem find?_map_idPreserving (g : User → User) (hg : ∀ u, (g u).user_id = u.user_id)
    (v : Nat) (l : List User) :
    (l.map g).find? (fun w => w.user_id == v) =
      Option.map g (l.find? (fun w => w.user_id == v)) := by
  induction l with
  | nil => rfl
  | cons a l ih =>
      by_cases hav : a.user_id = v
      · have h1 : ((fun (w : User) => w.user_id == v) (g a)) = true := by simp [hg, hav]
        have h2 : ((fun (w : User) => w.user_id == v) a) = true := by simp [hav]
        rw [List.map_cons,
            List.find?_cons_of_pos (p := fun (w : User) => w.user_id == v) _ h1,
            List.find?_cons_of_pos (p := fun (w : User) => w.user_id == v) _ h2]
        rfl
      · have h1 : ¬ ((fun (w : User) => w.user_id == v) (g a)) = true := by simp [hg, hav]
        have h2 : ¬ ((fun (w : User) => w.user_id == v) a) = true := by simp [hav]
        rw [List.map_cons,
            List.find?_cons_of_neg (p := fun (w : User) => w.user_id == v) _ h1,
            List.find?_cons_of_neg (p := fun (w : User) => w.user_id == v) _ h2]
        exact ih

theorem findUser_setUser (db : DB) (u' : User) (v : Nat) :
    findUser (setUser db u') v =
      Option.map (fun w => if w.user_id == u'.user_id then u' else w) (findUser db v) := by
  unfold findUser setUser
  refine find?_map_idPreserving _ ?_ v db.users
  intro u
  by_cases h : u.user_id = u'.user_id <;> simp [h]

theorem findUser_setUser_ne (db : DB) (u' : User) (v : Nat) (h : v ≠ u'.user_id) :
    findUser (setUser db u') v = findUser db v := by
  rw [findUser_setUser]
  cases hf : findUser db v with
  | none => rfl
  | some w =>
      have hw : w.user_id = v := findUser_id hf
      have hne : ¬ (w.user_id = u'.user_id) := by
        rw [hw]
        exact h
      simp [hne]

theorem findUser_setUser_eq (db : DB) (u' w : User) (h : findUser db u'.user_id = some w) :
    findUser (setUser db u') u'.user_id = some u' := by
  rw [findUser_setUser, h]
  have hw : w.user_id = u'.user_id := findUser_id h
  simp [hw]

theorem findUser_incUsage (uid : Nat) (db : DB) (v : Nat) :
    findUser (incUsage uid db) v =
      Option.map
        (fun u => if u.user_id == uid then { u with usage_count := u.usage_count + 1 } else u)
        (findUser db v) := by
  unfold findUser incUsage
  refine find?_map_idPreserving _ ?_ v db.users
  intro u
  by_cases h : u.user_id = uid <;> simp [h]

theorem setUser_conversions (db : DB) (u' : User) :
    (setUser db u').conversions = db.conversions := rfl

theorem incUsage_conversions (uid : Nat) (db : DB) :
    (incUsage uid db).conversions = db.conversions := rfl

theorem mem_setUser {db : DB} {u' w : User} (h : w ∈ (setUser db u').users) :
    w = u' ∨ w ∈ db.users := by
  simp only [setUser, List.mem_map] at h
  obtain ⟨v, hv, hw⟩ := h
  by_cases hid : v.user_id = u'.user_id
  · left
    simpa [hid] using hw.symm
  · right
    have hvw : v = w := by simpa [hid] using hw
    exact hvw ▸ hv

theorem updateCredits_notFound (uid : Nat) (amount : Int) (now : Nat) (db : DB)
    (h : findUser db uid = none) :
    updateCredits uid amount now db = .error .userNotFound := by
  simp [updateCredits, h]

theorem updateCredits_insufficient (uid : Nat) (amount : Int) (now : Nat) (db : DB) (u : User)
    (h : findUser db uid = some u) (h2 : u.credits + amount < 0) :
    updateCredits uid amount now db = .error .insufficientCredits := by
  simp [updateCredits, h, h2]

theorem updateCredits_commit (uid : Nat) (amount : Int) (now : Nat) (db : DB) (u : User)
    (h : findUser db uid = some u) (h2 : 0 ≤ u.credits + amount) :
    updateCredits uid amount now db =
      .ok (u.credits + amount,
        setUser db { u with credits := u.credits + amount, last_activity := now }) := by
  have h2' : ¬ (u.credits + amount < 0) := not_lt.mpr h2
  simp [updateCredits, h, h2']

theorem getOrCreateUser_existing (uid : Nat) (ud : UserData) (now : Nat) (db : DB) (u : User)
    (h : findUser db uid = some u) :
    getOrCreateUser uid ud now db = (u, setUser db { u with last_activity := now }) := by
  simp [getOrCreateUser, h]

theorem updateCredits_ok_inv {uid : Nat} {amount : Int} {now : Nat} {db : DB}
    {p : Int × DB} (h : updateCredits uid amount now db = .ok p) :
    ∃ u, findUser db uid = some u ∧ 0 ≤ u.credits + amount ∧
      p = (u.credits + amount,
        setUser db { u with credits := u.credits + amount, last_activity := now }) := by
  cases hf : findUser db uid with
  | none =>
      rw [updateCredits_notFound uid amount now db hf] at h
      cases h
  | some u =>
      by_cases hneg : u.credits + amount < 0
      · rw [updateCredits_insufficient uid amount now db u hf hneg] at h
        cases h
      · have hpos := not_lt.mp hneg
        rw [updateCredits_commit uid amount now db u hf hpos] at h
        injection h with h1
        exact ⟨u, rfl, hpos, h1.symm⟩

theorem applyOp_adjust_error (bonus : Int) (now : Nat) (db : DB) (uid : Nat)
    (amount : Int) (e : CreditErr) (h : updateCredits uid amount now db = .error e) :
    applyOp bonus now db (.adjust uid amount) = db := by
  simp only [applyOp, h]

theorem applyOp_adjust_ok (bonus : Int) (now : Nat) (db : DB) (uid : Nat)
    (amount : Int) (p : Int × DB) (h : updateCredits uid amount now db = .ok p) :
    applyOp bonus now db (.adjust uid amount) = p.2 := by
  simp only [applyOp, h]

theorem appliedSum_cons_error (uid : Nat) (now : Nat) (db : DB) (a : Int)
    (rest : List Int) (e : CreditErr) (h : updateCredits uid a now db = .error e) :
    appliedSum uid now db (a :: rest) = appliedSum uid now db rest := by
  simp only [appliedSum, h]

theorem appliedSum_cons_ok (uid : Nat) (now : Nat) (db : DB) (a : Int)
    (rest : List Int) (p : Int × DB) (h : updateCredits uid a now db = .ok p) :
    appliedSum uid now db (a :: rest) = a + appliedSum uid now p.2 rest := by
  simp only [appliedSum, h]

theorem getOrCreateUser_facts (uid : Nat) (ud : UserData) (now : Nat) (db : DB) (u : User)
    (hfind : findUser db uid = some u) :
    ∃ u1, findUser (getOrCreateUser uid ud now db).2 uid = some u1 ∧
      u1.credits = u.credits ∧ u1.user_id = uid ∧
      (getOrCreateUser uid ud now db).2.conversions = db.conversions ∧
      (getOrCreateUser uid ud now db).2.channelMsgs = db.channelMsgs ∧
      (getOrCreateUser uid ud now db).2.nextMsgId = db.nextMsgId := by
  have hid := findUser_id hfind
  have hG := getOrCreateUser_existing uid ud now db u hfind
  refine ⟨{ u with last_activity := now }, ?_, rfl, hid, ?_, ?_, ?_⟩
  · rw [hG, ← hid]
    exact findUser_setUser_eq db _ u
      (by show findUser db u.user_id = some u; rw [hid]; exact hfind)
  · rw [hG]
    rfl
  · rw [hG]
    rfl
  · rw [hG]
    rfl

theorem incUsage_facts (uid : Nat) (db : DB) (u : User)
    (hfind : findUser db uid = some u) (hid : u.user_id = uid) :
    ∃ u1, findUser (incUsage uid db) uid = some u1 ∧ u1.credits = u.credits ∧
      u1.user_id = uid ∧
      (incUsage uid db).conversions = db.conversions ∧
      (incUsage uid db).channelMsgs = db.channelMsgs ∧
      (incUsage uid db).nextMsgId = db.nextMsgId := by
  refine ⟨{ u with usage_count := u.usage_count + 1 }, ?_, rfl, hid, rfl, rfl, rfl⟩
  rw [findUser_incUsage, hfind]
  simp [hid]

theorem updateCredits_ok_facts (uid : Nat) (amount : Int) (now : Nat) (db : DB) (u : User)
    (hfind : findUser db uid = some u) (h2 : 0 ≤ u.credits + amount) :
    ∃ u1 db1,
      updateCredits uid amount now db = .ok (u.credits + amount, db1) ∧
      findUser db1 uid = some u1 ∧
      u1.credits = u.credits + amount ∧ u1.user_id = uid ∧
      db1.conversions = db.conversions ∧
      db1.channelMsgs = db.channelMsgs ∧
      db1.nextMsgId = db.nextMsgId := by
  have hid := findUser_id hfind
  refine ⟨{ u with credits := u.credits + amount, last_activity := now }, _,
    updateCredits_commit uid amount now db u hfind h2, ?_, rfl, hid, rfl, rfl, rfl⟩
  rw [← hid]
  exact findUser_setUser_eq db _ u
    (by show findUser db u.user_id = some u; rw [hid]; exact hfind)

theorem findUser_after_commit (uid : Nat) (amount : Int) (now : Nat) (db : DB) (u : User)
    (hfind : findUser db uid = some u) :
    findUser (setUser db { u with credits := u.credits + amount, last_activity := now }) uid
      = some { u with credits := u.credits + amount, last_activity := now } := by
  have hid := findUser_id hfind
  rw [← hid]
  exact findUser_setUser_eq db _ u
    (by show findUser db u.user_id = some u; rw [hid]; exact hfind)

theorem applyOps_nil (bonus : Int) (now : Nat) (db : DB) :
    applyOps bonus now [] db = db := rfl

theorem applyOps_cons (bonus : Int) (now : Nat) (op : LedgerOp) (ops : List LedgerOp)
    (db : DB) :
    applyOps bonus now (op :: ops) db = applyOps bonus now ops (applyOp bonus now db op) := rfl

theorem applyOp_nonneg (bonus : Int) (now : Nat) (db : DB) (op : LedgerOp)
    (hb : 0 ≤ bonus) (h : creditsNonneg db) : creditsNonneg (applyOp bonus now db op) := by
  cases op with
  | create uid =>
      show creditsNonneg (getOrCreateUser uid {} now db).2
      cases hf : findUser db uid with
      | some u =>
          rw [getOrCreateUser_existing uid {} now db u hf]
          intro w hw
          rcases mem_setUser hw with rfl | hw2
          · exact h u (findUser_mem hf)
          · exact h w hw2
      | none =>
          simp only [getOrCreateUser, hf]
          intro w hw
          simp only [List.mem_append, List.mem_singleton] at hw
          rcases hw with hw | rfl
          · exact h w hw
          · show (0:Int) ≤ 10
            norm_num
  | adjust uid amount =>
      cases hup : updateCredits uid amount now db with
      | error e =>
          rw [applyOp_adjust_error bonus now db uid amount e hup]
          exact h
      | ok p =>
          rw [applyOp_adjust_ok bonus now db uid amount p hup]
          obtain ⟨u, hf, hpos, hp⟩ := updateCredits_ok_inv hup
          rw [hp]
          intro w hw
          rcases mem_setUser hw with rfl | hw2
          · exact hpos
          · exact h w hw2
  | refer rid uid =>
      show creditsNonneg (processReferral rid uid bonus now db).2
      by_cases h1 : (jsFalsyRef rid || rid == some uid) = true
      · simp only [processReferral, h1, if_true]
        exact h
      · have h1' : (jsFalsyRef rid || rid == some uid) = false :=
          Bool.not_eq_true _ ▸ eq_false_of_ne_true h1
        cases rid with
        | none =>
            simp only [processReferral, h1', Bool.false_eq_true, if_false]
            exact h
        | some r =>
            cases hf : findUser db r with
            | none =>
                simp only [processReferral, h1', Bool.false_eq_true, if_false, hf]
                exact h
            | some u =>
                simp only [processReferral, h1', Bool.false_eq_true, if_false, hf]
                intro w hw
                rcases mem_setUser hw with rfl | hw2
                · show (0:Int) ≤ u.credits + bonus
                  have := h u (findUser_mem hf)
                  omega
                · exact h w hw2
  | reset uid =>
      show creditsNonneg (resetUser uid now db).2
      cases hf : findUser db uid with
      | none =>
          simp only [resetUser, hf]
          exact h
      | some u =>
          simp only [resetUser, hf]
          intro w hw
          rcases mem_setUser hw with rfl | hw2
          · show (0:Int) ≤ 10
            norm_num
          · exact h w hw2

theorem applyOps_nonneg (bonus : Int) (now : Nat) (hb : 0 ≤ bonus) :
    ∀ (ops : List LedgerOp) (db : DB), creditsNonneg db →
      creditsNonneg (applyOps bonus now ops db)
  | [], _, h => h
  | op :: ops, db, h =>
      applyOps_nonneg bonus now hb ops (applyOp bonus now db op)
        (applyOp_nonneg bonus now db op hb h)

theorem adjusts_sum (bonus : Int) (now : Nat) :
    ∀ (amts : List Int) (uid : Nat) (db : DB) (u : User),
      findUser db uid = some u →
      userCredits (applyOps bonus now (amts.map (LedgerOp.adjust uid)) db) uid
        = some (u.credits + appliedSum uid now db amts)
  | [], uid, db, u, h => by
      simp [applyOps_nil, appliedSum, userCredits, h]
  | a :: amts, uid, db, u, h => by
      rw [List.map_cons, applyOps_cons]
      by_cases hneg : u.credits + a < 0
      · have herr := updateCredits_insufficient uid a now db u h hneg
        rw [applyOp_adjust_error bonus now db uid a _ herr,
          adjusts_sum bonus now amts uid db u h,
          appliedSum_cons_error uid now db a amts _ herr]
      · have hpos := not_lt.mp hneg
        have hcommit := updateCredits_commit uid a now db u h hpos
        rw [applyOp_adjust_ok bonus now db uid a _ hcommit,
          appliedSum_cons_ok uid now db a amts _ hcommit]
        show userCredits (applyOps bonus now (amts.map (LedgerOp.adjust uid))
            (setUser db { u with credits := u.credits + a, last_activity := now })) uid = _
        rw [adjusts_sum bonus now amts uid _ _
          (findUser_after_commit uid a now db u h)]
        show some (u.credits + a + appliedSum uid now _ amts) = _
        rw [add_assoc]

/-! Concrete stores used to instantiate the theorems. -/

/-- A user with 7 credits. -/
def exU : User :=
  { user_id := 1, credits := 7, referrals := 0, usage_count := 0, created_at := 0,
    last_activity := 0 }

/-- A store holding only `exU`. -/
def exDB1 : DB := { users := [exU] }

/-- A pending video session. -/
def exFi : FileInfo :=
  { fileId := "f1", fileType := .video, fileName := "v.mp4", fileSize := 100 }

/-- Pipeline environment in which every external step succeeds. -/
def envOk : PipeEnv :=
  { downloadOk := true, convertOk := true, uploadOk := true, stagedFileId := "s1",
    chatId := -100 }

/-- Pipeline environment in which the transcode step fails. -/
def envConvertFail : PipeEnv := { envOk with convertOk := false }

/-! Shape lemmas for `convertHandler`. -/

theorem convertHandler_noSession (uid : Nat) (fmt : String) (cost : Int) (hrs now : Nat)
    (env : PipeEnv) (db : DB) :
    convertHandler uid fmt cost hrs now env none db
      = (.sessionExpired, none, (getOrCreateUser uid {} now db).2) := rfl

theorem convertHandler_shape (uid : Nat) (fmt : String) (cost : Int) (hrs now : Nat)
    (env : PipeEnv) (fi : FileInfo) (db : DB) :
    (∃ db', convertHandler uid fmt cost hrs now env (some fi) db = (.success, none, db')) ∨
    (∃ e db', convertHandler uid fmt cost hrs now env (some fi) db
        = (.failed e, some fi, db')) := by
  simp only [convertHandler]
  split
  · exact Or.inr ⟨_, _, rfl⟩
  · split
    · exact Or.inr ⟨_, _, rfl⟩
    · split
      · exact Or.inr ⟨_, _, rfl⟩
      · split
        · exact Or.inr ⟨_, _, rfl⟩
        · split
          · exact Or.inr ⟨_, _, rfl⟩
          · exact Or.inl ⟨_, rfl⟩

/-- The state right after a successful stage upload inside
`convertHandler`: get-or-create followed by the stage-time record
append (bookkeeping name for the intermediate state the settle debit
runs against). -/
def stagedState (uid : Nat) (env : PipeEnv) (hrs now : Nat) (db : DB) : DB :=
  let db1 := (getOrCreateUser uid {} now db).2
  { db1 with channelMsgs := db1.channelMsgs ++ [db1.nextMsgId],
             nextMsgId := db1.nextMsgId + 1,
             conversions := db1.conversions ++
               [stageDocOf env.chatId env.stagedFileId hrs now db1.nextMsgId] }

theorem convertHandler_after_stage (uid : Nat) (fmt : String) (cost : Int)
    (hrs now : Nat) (env : PipeEnv) (fi : FileInfo) (db : DB)
    (hd : env.downloadOk = true) (hc : env.convertOk = true) (hu : env.uploadOk = true) :
    convertHandler uid fmt cost hrs now env (some fi) db
      = (match updateCredits uid (-cost) now (stagedState uid env hrs now db) with
         | .error e => (.failed (ofCreditErr e), some fi, stagedState uid env hrs now db)
         | .ok settled =>
             let db4 := incUsage uid settled.2
             let db5 := { db4 with conversions :=
               db4.conversions ++ [settleDocOf uid fi.fileId env.stagedFileId fmt now] }
             match updateCredits uid 0 now db5 with
             | .error e => (.failed (ofCreditErr e), some fi, db5)
             | .ok reread => (.success, none, reread.2)) := by
  simp [convertHandler, uploadToStorageChannel, stagedState, hd, hc, hu]

theorem stagedState_conversions (uid : Nat) (env : PipeEnv) (hrs now : Nat) (db : DB) :
    (stagedState uid env hrs now db).conversions
      = (getOrCreateUser uid {} now db).2.conversions ++
        [stageDocOf env.chatId env.stagedFileId hrs now
          (getOrCreateUser uid {} now db).2.nextMsgId] := rfl

/-! Claim theorems. -/

/-- C1: `updateCredits` is a single read-modify-write on the stored
balance: against a missing account it fails with the account-not-found
error; when `balance + amount < 0` it fails with the insufficient-credits
error; errors commit nothing (the transaction throws, so no state is
returned); otherwise it commits `balance + amount`, returns it, and
touches no conversion record and no other account. -/
theorem updateCredits_atomic_spec (uid : Nat) (amount : Int) (now : Nat) (db : DB) :
    (findUser db uid = none → updateCredits uid amount now db = .error .userNotFound) ∧
    (∀ u, findUser db uid = some u → u.credits + amount < 0 →
        updateCredits uid amount now db = .error .insufficientCredits) ∧
    (∀ u, findUser db uid = some u → 0 ≤ u.credits + amount →
        ∃ db1, updateCredits uid amount now db = .ok (u.credits + amount, db1) ∧
          userCredits db1 uid = some (u.credits + amount) ∧
          db1.conversions = db.conversions ∧
          ∀ v, v ≠ uid → findUser db1 v = findUser db v) := by
  refine ⟨fun h => updateCredits_notFound uid amount now db h,
          fun u h h2 => updateCredits_insufficient uid amount now db u h h2,
          fun u h h2 => ?_⟩
  have hid : u.user_id = uid := findUser_id h
  refine ⟨_, updateCredits_commit uid amount now db u h h2, ?_, rfl, ?_⟩
  · have hfind :
        findUser db ({ u with credits := u.credits + amount, last_activity := now} : User).user_id
          = some u := by
      show findUser db u.user_id = some u
      rw [hid]
      exact h
    have := findUser_setUser_eq db
      { u with credits := u.credits + amount, last_activity := now } u hfind
    unfold userCredits
    show (findUser (setUser db _) uid).map _ = _
    rw [show uid = ({ u with credits := u.credits + amount, last_activity := now} : User).user_id
          from hid.symm, this]
    rfl
  · intro v hv
    refine findUser_setUser_ne db _ v ?_
    show v ≠ ({ u with credits := u.credits + amount, last_activity := now} : User).user_id
    show v ≠ u.user_id
    rw [hid]
    exact hv

/-- C2 counterexample: with a live session for account 1, a
format-selection event whose pipeline fails at the transcode step leaves
the session in place (it is not consumed on hand-off), and a second
format-selection event reusing that very session then succeeds — refuting
the claim that the session is consumed once handed to the Pipeline even
if the Pipeline later fails. -/
theorem convertHandler_reuse_after_failure :
    (convertHandler 1 "720p" 1 2 5 envConvertFail (some exFi) exDB1).1
        = .failed .convertFailed ∧
    (convertHandler 1 "720p" 1 2 5 envConvertFail (some exFi) exDB1).2.1 = some exFi ∧
    (convertHandler 1 "720p" 1 2 5 envOk
        (convertHandler 1 "720p" 1 2 5 envConvertFail (some exFi) exDB1).2.1
        (convertHandler 1 "720p" 1 2 5 envConvertFail (some exFi) exDB1).2.2).1
      = .success :=
  ⟨rfl, rfl, rfl⟩

/-- C2 amended: the session is consumed only when the pipeline completes
successfully.  A format selection with no live session is rejected as
session-not-found; a successful format selection clears the session, so a
second selection after a success is rejected as session-not-found; a
failed pipeline leaves the session exactly as it was (and it may be
reused). -/
theorem convertHandler_single_use_amended (uid : Nat) (fmt : String) (cost : Int)
    (hrs now : Nat) (env : PipeEnv) (fi : FileInfo) (db : DB) :
    (convertHandler uid fmt cost hrs now env none db
        = (.sessionExpired, none, (getOrCreateUser uid {} now db).2)) ∧
    (∀ res s1 db1, convertHandler uid fmt cost hrs now env (some fi) db = (res, s1, db1) →
        (res = .success → s1 = none) ∧ (res ≠ .success → s1 = some fi)) ∧
    (∀ res s1 db1 fmt2 cost2 hrs2 now2 env2,
        convertHandler uid fmt cost hrs now env (some fi) db = (res, s1, db1) →
        res = .success →
        (convertHandler uid fmt2 cost2 hrs2 now2 env2 s1 db1).1 = .sessionExpired) := by
  have key : ∀ res s1 db1,
      convertHandler uid fmt cost hrs now env (some fi) db = (res, s1, db1) →
      (res = .success → s1 = none) ∧ (res ≠ .success → s1 = some fi) := by
    intro res s1 db1 hEq
    rcases convertHandler_shape uid fmt cost hrs now env fi db with ⟨db', h⟩ | ⟨e, db', h⟩
    · rw [hEq] at h
      simp only [Prod.mk.injEq] at h
      obtain ⟨hres, hs, -⟩ := h
      exact ⟨fun _ => hs, fun hne => absurd hres hne⟩
    · rw [hEq] at h
      simp only [Prod.mk.injEq] at h
      obtain ⟨hres, hs, -⟩ := h
      refine ⟨fun hsc => ?_, fun _ => hs⟩
      rw [hres] at hsc
      exact absurd hsc (by simp)
  refine ⟨convertHandler_noSession uid fmt cost hrs now env db, key, ?_⟩
  intro res s1 db1 fmt2 cost2 hrs2 now2 env2 hEq hres
  have hs1 : s1 = none := (key res s1 db1 hEq).1 hres
  rw [hs1, convertHandler_noSession]

/-- Witness for C2 amended at concrete inputs: with everything healthy
the conversion for account 1 succeeds, its session ends cleared, and a
selection without a session is rejected. -/
theorem convertHandler_single_use_amended_witness :
    (convertHandler 1 "720p" 1 2 5 envOk (some exFi) exDB1).2.1 = none ∧
    convertHandler 1 "720p" 1 2 5 envOk none exDB1
      = (.sessionExpired, none, (getOrCreateUser 1 {} 5 exDB1).2) := by
  have h := convertHandler_single_use_amended 1 "720p" 1 2 5 envOk exFi exDB1
  refine ⟨?_, h.1⟩
  exact (h.2.1 (convertHandler 1 "720p" 1 2 5 envOk (some exFi) exDB1).1
      (convertHandler 1 "720p" 1 2 5 envOk (some exFi) exDB1).2.1
      (convertHandler 1 "720p" 1 2 5 envOk (some exFi) exDB1).2.2 rfl).1 (by rfl)

/-- C3: the code awards the referral bonus on every `/start` carrying the
referral payload, not only at account creation.  Scenario: referrer 1 has
7 credits and 0 referrals and `REFERRAL_BONUS = 5`; user 2 first starts
with payload `ref_1` (account created, bonus awarded: 12 credits,
1 referral); user 2 starts again with the same payload, and although the
account already exists the bonus is awarded a second time (17 credits,
2 referrals) — the `user.created_at` gate in the source is a Firestore
timestamp, truthy for pre-existing users too, contradicting the comment
in the source that the referral is processed only for a new user. -/
theorem startHandler_awards_bonus_every_start :
    userCredits (startHandler 2 "bob" (some 1) 5 1 exDB1) 1 = some 12 ∧
    (findUser (startHandler 2 "bob" (some 1) 5 1 exDB1) 1).map (fun u => u.referrals)
      = some 1 ∧
    userCredits (startHandler 2 "bob" (some 1) 5 2
        (startHandler 2 "bob" (some 1) 5 1 exDB1)) 1 = some 17 ∧
    (findUser (startHandler 2 "bob" (some 1) 5 2
        (startHandler 2 "bob" (some 1) 5 1 exDB1)) 1).map (fun u => u.referrals)
      = some 2 := by
  refine ⟨?_, ?_, ?_, ?_⟩ <;> decide

/-- An expired stage-time record whose staged message is still present in
the storage channel. -/
def exStaleDoc : ConversionDoc :=
  { message_id := some 100, chat_id := some (-100), file_id := some "s0",
    created_at := 0, expires_at := some 5 }

/-- A store holding one expired record and its channel message. -/
def exSweepDB : DB :=
  { conversions := [exStaleDoc], channelMsgs := [100], nextMsgId := 101 }

/-- C4 counterexample: at time 10 the record `exStaleDoc` is expired; the
remote deletion fails (the message 100 is still in the channel after the
run), yet its metadata record is deleted anyway — refuting the claim that
a record whose remote deletion failed is left in place so it remains
eligible for the next run. -/
theorem cleanup_deletes_metadata_despite_remote_failure :
    (cleanupOldFiles (fun _ => false) 10 exSweepDB).1 = 1 ∧
    (cleanupOldFiles (fun _ => false) 10 exSweepDB).2.conversions = [] ∧
    (cleanupOldFiles (fun _ => false) 10 exSweepDB).2.channelMsgs = [100] ∧
    (cleanupOldFiles (fun _ => false) 10
        (cleanupOldFiles (fun _ => false) 10 exSweepDB).2).1 = 0 :=
  ⟨rfl, rfl, rfl, rfl⟩

theorem cleanup_count_zero (r : Nat → Bool) (now : Nat) (db : DB)
    (h : db.conversions.filter (isExpired now) = []) :
    (cleanupOldFiles r now db).1 = 0 := by
  simp only [cleanupOldFiles, h]
  rfl

/-- C4 amended: a sweep run deletes the metadata record of every expired
record unconditionally, whether or not the remote deletion succeeded; a
message whose remote deletion failed stays in the channel (orphaned — it
is never retried because its record is gone); and an immediate second run
finds no expired record, so a given expired record is reclaimed at most
once. -/
theorem cleanup_unconditional_metadata_delete (r1 r2 : Nat → Bool) (now : Nat) (db : DB) :
    (cleanupOldFiles r1 now db).2.conversions
        = db.conversions.filter (fun d => !(isExpired now d)) ∧
    (∀ m, m ∈ db.channelMsgs → r1 m = false →
        m ∈ (cleanupOldFiles r1 now db).2.channelMsgs) ∧
    (cleanupOldFiles r2 now (cleanupOldFiles r1 now db).2).1 = 0 := by
  by_cases he : (db.conversions.filter (isExpired now)).isEmpty = true
  · have hnil : db.conversions.filter (isExpired now) = [] := by
      simpa [List.isEmpty_iff] using he
    have hall : ∀ d ∈ db.conversions, isExpired now d = false := by
      intro d hd
      by_contra hcon
      have : d ∈ db.conversions.filter (isExpired now) :=
        List.mem_filter.mpr ⟨hd, by simpa using hcon⟩
      rw [hnil] at this
      exact absurd this (List.not_mem_nil d)
    have hid : cleanupOldFiles r1 now db = (0, db) := by
      simp [cleanupOldFiles, he]
    refine ⟨?_, ?_, ?_⟩
    · rw [hid]
      have : db.conversions.filter (fun d => !(isExpired now d)) = db.conversions := by
        refine List.filter_eq_self.mpr ?_
        intro d hd
        simp [hall d hd]
      rw [this]
    · intro m hm _
      rw [hid]
      exact hm
    · rw [hid]
      exact cleanup_count_zero r2 now db hnil
  · have hrun : cleanupOldFiles r1 now db
        = ((db.conversions.filter (isExpired now)).length,
           { db with
               conversions := db.conversions.filter (fun d => !(isExpired now d)),
               channelMsgs := db.channelMsgs.filter
                 (fun m => !(r1 m &&
                   (db.conversions.filter (isExpired now)).any
                     (fun d => d.message_id == some m))) }) := by
      simp [cleanupOldFiles, he]
    refine ⟨by rw [hrun], ?_, ?_⟩
    · intro m hm hr
      rw [hrun]
      refine List.mem_filter.mpr ⟨hm, ?_⟩
      simp [hr]
    · have hnone : ((cleanupOldFiles r1 now db).2.conversions.filter (isExpired now)) = [] := by
        refine List.filter_eq_nil_iff.mpr ?_
        intro d hd
        rw [hrun] at hd
        have hh := (List.mem_filter.mp hd).2
        simp only [Bool.not_eq_true'] at hh
        simp [hh]
      exact cleanup_count_zero r2 now _ hnone

/-- Witness for C4 amended at the concrete sweep state: the expired
metadata of the expired record is gone, its channel message 100 survives the failed
remote delete, and an immediate second run reclaims nothing. -/
theorem cleanup_unconditional_metadata_delete_witness :
    (cleanupOldFiles (fun _ => false) 10 exSweepDB).2.conversions
        = exSweepDB.conversions.filter (fun d => !(isExpired 10 d)) ∧
    100 ∈ (cleanupOldFiles (fun _ => false) 10 exSweepDB).2.channelMsgs ∧
    (cleanupOldFiles (fun _ => false) 10
        (cleanupOldFiles (fun _ => false) 10 exSweepDB).2).1 = 0 := by
  have h := cleanup_unconditional_metadata_delete (fun _ => false) (fun _ => false) 10 exSweepDB
  exact ⟨h.1, h.2.1 100 (by decide) rfl, h.2.2⟩

/-- C5: once the pipeline reaches the Stage step (download, transcode and
upload succeed), the stage-time ConversionRecord with
`expires_at = now + retention` is written by the upload and is already
present in the state the Settle debit runs against; if the debit then
fails for lack of credits, the handler reports the insufficient-credits
failure at settlement time, the staged record stands in the final state
unchanged (no rollback), the balance is untouched, and no settle-time
record is written. -/
theorem stage_record_before_settle (uid : Nat) (fmt : String) (cost : Int)
    (hrs now : Nat) (env : PipeEnv) (fi : FileInfo) (u : User) (db : DB)
    (hd : env.downloadOk = true) (hc : env.convertOk = true) (hu : env.uploadOk = true)
    (hfind : findUser db uid = some u) :
    ∃ db2,
      uploadToStorageChannel env.uploadOk env.chatId env.stagedFileId hrs now
          (getOrCreateUser uid {} now db).2
        = .ok ((getOrCreateUser uid {} now db).2.nextMsgId, db2) ∧
      stageDocOf env.chatId env.stagedFileId hrs now
          ((getOrCreateUser uid {} now db).2.nextMsgId) ∈ db2.conversions ∧
      (u.credits < cost →
        convertHandler uid fmt cost hrs now env (some fi) db
          = (.failed .insufficientCredits, some fi, db2) ∧
        userCredits db2 uid = some u.credits) := by
  refine ⟨stagedState uid env hrs now db, ?_, ?_, ?_⟩
  · rw [hu]
    rfl
  · simp [stagedState]
  · intro hlt
    have hid : u.user_id = uid := findUser_id hfind
    have hG := getOrCreateUser_existing uid {} now db u hfind
    have hfindX : findUser (getOrCreateUser uid {} now db).2 uid
        = some { u with last_activity := now } := by
      rw [hG, ← hid]
      exact findUser_setUser_eq db { u with last_activity := now } u
        (by show findUser db u.user_id = some u; rw [hid]; exact hfind)
    have hfindS : findUser (stagedState uid env hrs now db) uid
        = some { u with last_activity := now } := hfindX
    have hdebit : updateCredits uid (-cost) now (stagedState uid env hrs now db)
        = .error .insufficientCredits := by
      refine updateCredits_insufficient _ _ _ _ _ hfindS ?_
      show u.credits + -cost < 0
      omega
    refine ⟨?_, ?_⟩
    · rw [convertHandler_after_stage uid fmt cost hrs now env fi db hd hc hu, hdebit]
      rfl
    · unfold userCredits
      rw [hfindS]
      rfl

/-- Witness for C5 at concrete inputs: account 1 holds 7 credits, the
conversion costs 100, every external step succeeds. -/
theorem stage_record_before_settle_witness :
    ∃ db2,
      uploadToStorageChannel envOk.uploadOk envOk.chatId envOk.stagedFileId 2 5
          (getOrCreateUser 1 {} 5 exDB1).2
        = .ok ((getOrCreateUser 1 {} 5 exDB1).2.nextMsgId, db2) ∧
      stageDocOf envOk.chatId envOk.stagedFileId 2 5
          ((getOrCreateUser 1 {} 5 exDB1).2.nextMsgId) ∈ db2.conversions ∧
      (exU.credits < 100 →
        convertHandler 1 "720p" 100 2 5 envOk (some exFi) exDB1
          = (.failed .insufficientCredits, some exFi, db2) ∧
        userCredits db2 1 = some exU.credits) :=
  stage_record_before_settle 1 "720p" 100 2 5 envOk exFi exU exDB1 rfl rfl rfl (by decide)

/-- C10: a fully successful conversion appends exactly two documents to
the conversions collection: the stage-time document (no `user_id`, with
`expires_at = now + retention` and the staged message id) and the
settle-time document (`user_id`, `format`, `created_at`, no
`expires_at`); the sweep's `expires_at` filter never matches a document
without that field, so settle-time documents are never reclaimed; the
daily-usage filter never matches a document without `user_id`, so
stage-time documents are never counted; and `getStats` counts both
documents per conversion. -/
theorem two_records_per_conversion (uid : Nat) (fmt : String) (cost : Int)
    (hrs now sda : Nat) (env : PipeEnv) (fi : FileInfo) (u : User) (db : DB)
    (hd : env.downloadOk = true) (hc : env.convertOk = true) (hu : env.uploadOk = true)
    (hfind : findUser db uid = some u) (hok : 0 ≤ u.credits - cost) :
    (∃ db6, convertHandler uid fmt cost hrs now env (some fi) db = (.success, none, db6) ∧
      db6.conversions = db.conversions ++
        [stageDocOf env.chatId env.stagedFileId hrs now db.nextMsgId,
         settleDocOf uid fi.fileId env.stagedFileId fmt now] ∧
      (getStats sda db6).totalConversions = (getStats sda db).totalConversions + 2) ∧
    (stageDocOf env.chatId env.stagedFileId hrs now db.nextMsgId).user_id = none ∧
    (stageDocOf env.chatId env.stagedFileId hrs now db.nextMsgId).expires_at
      = some (now + hrs * 60 * 60 * 1000) ∧
    (settleDocOf uid fi.fileId env.stagedFileId fmt now).user_id = some uid ∧
    (settleDocOf uid fi.fileId env.stagedFileId fmt now).format = some fmt ∧
    (settleDocOf uid fi.fileId env.stagedFileId fmt now).created_at = now ∧
    (settleDocOf uid fi.fileId env.stagedFileId fmt now).expires_at = none ∧
    (∀ t d, d.expires_at = none → isExpired t d = false) ∧
    (∀ v t d, d.user_id = none → dailyMatch v t d = false) := by
  obtain ⟨u1, hf1, hc1, hi1, hconv1, hch1, hnx1⟩ :=
    getOrCreateUser_facts uid {} now db u hfind
  have hfS : findUser (stagedState uid env hrs now db) uid = some u1 := hf1
  obtain ⟨u2, db2, heq, hf2, hc2, hi2, hconv2, hch2, hnx2⟩ :=
    updateCredits_ok_facts uid (-cost) now (stagedState uid env hrs now db) u1 hfS
      (by omega)
  obtain ⟨u3, hf3, hc3, hi3, hconvI, hchI, hnxI⟩ := incUsage_facts uid db2 u2 hf2 hi2
  have hfD5 : findUser
      { incUsage uid db2 with conversions := (incUsage uid db2).conversions
          ++ [settleDocOf uid fi.fileId env.stagedFileId fmt now] } uid = some u3 := hf3
  obtain ⟨u4, db6, heq2, hf4, hc4, hi4, hconv6, hch6, hnx6⟩ :=
    updateCredits_ok_facts uid 0 now
      { incUsage uid db2 with conversions := (incUsage uid db2).conversions
          ++ [settleDocOf uid fi.fileId env.stagedFileId fmt now] } u3 hfD5
      (by omega)
  have hconvFinal : db6.conversions = db.conversions ++
      [stageDocOf env.chatId env.stagedFileId hrs now db.nextMsgId,
       settleDocOf uid fi.fileId env.stagedFileId fmt now] := by
    rw [hconv6]
    show (incUsage uid db2).conversions ++ _ = _
    rw [hconvI, hconv2, stagedState_conversions, hconv1, hnx1]
    simp [List.append_assoc]
  refine ⟨?_, rfl, rfl, rfl, rfl, rfl, rfl, ?_, ?_⟩
  · simp only [convertHandler_after_stage uid fmt cost hrs now env fi db hd hc hu,
      heq, heq2]
    exact ⟨db6, rfl, hconvFinal, by simp [getStats, hconvFinal]⟩
  · intro t d h
    simp [isExpired, h]
  · intro v t d h
    simp [dailyMatch, h]

/-- Witness for C10 at concrete inputs: account 1 holds 7 credits, the
conversion costs 1, every external step succeeds. -/
theorem two_records_per_conversion_witness :
    (∃ db6, convertHandler 1 "720p" 1 2 5 envOk (some exFi) exDB1 = (.success, none, db6) ∧
      db6.conversions = exDB1.conversions ++
        [stageDocOf envOk.chatId envOk.stagedFileId 2 5 exDB1.nextMsgId,
         settleDocOf 1 exFi.fileId envOk.stagedFileId "720p" 5] ∧
      (getStats 0 db6).totalConversions = (getStats 0 exDB1).totalConversions + 2) ∧
    (stageDocOf envOk.chatId envOk.stagedFileId 2 5 exDB1.nextMsgId).user_id = none ∧
    (stageDocOf envOk.chatId envOk.stagedFileId 2 5 exDB1.nextMsgId).expires_at
      = some (5 + 2 * 60 * 60 * 1000) ∧
    (settleDocOf 1 exFi.fileId envOk.stagedFileId "720p" 5).user_id = some 1 ∧
    (settleDocOf 1 exFi.fileId envOk.stagedFileId "720p" 5).format = some "720p" ∧
    (settleDocOf 1 exFi.fileId envOk.stagedFileId "720p" 5).created_at = 5 ∧
    (settleDocOf 1 exFi.fileId envOk.stagedFileId "720p" 5).expires_at = none ∧
    (∀ t d, d.expires_at = none → isExpired t d = false) ∧
    (∀ v t d, d.user_id = none → dailyMatch v t d = false) :=
  two_records_per_conversion 1 "720p" 1 2 5 0 envOk exFi exU exDB1 rfl rfl rfl
    (by decide) (by decide)

/-- C7: an account whose balance is below the conversion cost is rejected
by both upload handlers with the insufficient-credits message, and the
rejection mutates no relevant state: the session is unchanged, no debit
happens (the balance stays exactly what it was), and no conversion
record is written. -/
theorem insufficient_credits_rejection_pure (uid : Nat) (cost : Int)
    (dailyLimit maxMB : Nat) (fid fn : String) (fs today now : Nat)
    (session : Option FileInfo) (db : DB) (u : User)
    (hfind : findUser db uid = some u) (hlt : u.credits < cost) :
    videoHandler uid cost dailyLimit maxMB fid fn fs today now session db
      = (.insufficientCreditsMsg, session, setUser db { u with last_activity := now }) ∧
    audioHandler uid cost dailyLimit maxMB fid fn fs today now session db
      = (.insufficientCreditsMsg, session, setUser db { u with last_activity := now }) ∧
    (setUser db { u with last_activity := now }).conversions = db.conversions ∧
    userCredits (setUser db { u with last_activity := now }) uid = some u.credits := by
  have hG := getOrCreateUser_existing uid {} now db u hfind
  have hid : u.user_id = uid := findUser_id hfind
  refine ⟨?_, ?_, rfl, ?_⟩
  · simp [videoHandler, hG, hlt]
  · simp [audioHandler, hG, hlt]
  · unfold userCredits
    rw [← hid]
    rw [findUser_setUser_eq db { u with last_activity := now } u
      (by show findUser db u.user_id = some u; rw [hid]; exact hfind)]
    rfl

/-- Witness for C7 at concrete inputs: account 1 holds 7 credits and the
conversion costs 100. -/
theorem insufficient_credits_rejection_pure_witness :
    videoHandler 1 100 3 20 "f1" "v.mp4" 50 0 5 none exDB1
      = (.insufficientCreditsMsg, none, setUser exDB1 { exU with last_activity := 5 }) ∧
    audioHandler 1 100 3 20 "f1" "v.mp4" 50 0 5 none exDB1
      = (.insufficientCreditsMsg, none, setUser exDB1 { exU with last_activity := 5 }) ∧
    (setUser exDB1 { exU with last_activity := 5 }).conversions = exDB1.conversions ∧
    userCredits (setUser exDB1 { exU with last_activity := 5 }) 1 = some exU.credits :=
  insufficient_credits_rejection_pure 1 100 3 20 "f1" "v.mp4" 50 0 5 none exDB1 exU
    (by decide) (by decide)

/-- One upload attempt of the daily-limit scenario: account 1, cost 1,
daily limit 3, 20 MB cap, a 100-byte video, day start 0, time 5, no
pending session. -/
def limitAttempt (db : DB) : UploadOutcome × Option FileInfo × DB :=
  videoHandler 1 1 3 20 "f1" "v.mp4" 100 0 5 none db

/-- The format-selection step of the daily-limit scenario, with every
external step succeeding. -/
def limitConvert (s : Option FileInfo) (db : DB) : ConvertResult × Option FileInfo × DB :=
  convertHandler 1 "720p" 1 2 5 envOk s db

/-- The store of the daily-limit scenario after `n` complete
upload-then-convert rounds starting from `exDB1`. -/
def afterConversions : Nat → DB
  | 0 => exDB1
  | n + 1 =>
      (limitConvert (limitAttempt (afterConversions n)).2.1
        (limitAttempt (afterConversions n)).2.2).2.2

/-- C6: the daily-limit check reports the limit reached exactly when the
count of the conversion documents of the account created today is at least the
daily limit; in the scenario with limit 3 and sufficient credits, the
first three conversions succeed and the fourth upload attempt is rejected
with the daily-limit message; and with limit 0 any upload by an existing,
sufficiently funded account is rejected with the daily-limit message. -/
theorem daily_limit_spec :
    (∀ uid limit today db u, findUser db uid = some u →
        (checkDailyLimit uid limit today db = true ↔ limit ≤ dailyCount uid today db)) ∧
    ((limitAttempt (afterConversions 0)).1 = .formatsShown ∧
     (limitConvert (limitAttempt (afterConversions 0)).2.1
        (limitAttempt (afterConversions 0)).2.2).1 = .success ∧
     (limitAttempt (afterConversions 1)).1 = .formatsShown ∧
     (limitConvert (limitAttempt (afterConversions 1)).2.1
        (limitAttempt (afterConversions 1)).2.2).1 = .success ∧
     (limitAttempt (afterConversions 2)).1 = .formatsShown ∧
     (limitConvert (limitAttempt (afterConversions 2)).2.1
        (limitAttempt (afterConversions 2)).2.2).1 = .success ∧
     (limitAttempt (afterConversions 3)).1 = .dailyLimitMsg) ∧
    (∀ uid cost maxMB fid fn fs today now session db u,
        findUser db uid = some u → ¬ (u.credits < cost) →
        (videoHandler uid cost 0 maxMB fid fn fs today now session db).1
          = .dailyLimitMsg) := by
  refine ⟨?_, ?_, ?_⟩
  · intro uid limit today db u hfind
    simp [checkDailyLimit, hfind]
  · refine ⟨?_, ?_, ?_, ?_, ?_, ?_, ?_⟩ <;> decide
  · intro uid cost maxMB fid fn fs today now session db u hfind hge
    have hG := getOrCreateUser_existing uid {} now db u hfind
    have hid : u.user_id = uid := findUser_id hfind
    have hf2 : findUser (setUser db { u with last_activity := now }) uid
        = some { u with last_activity := now } := by
      rw [← hid]
      exact findUser_setUser_eq db _ u
        (by show findUser db u.user_id = some u; rw [hid]; exact hfind)
    have hcheck : checkDailyLimit uid 0 today (setUser db { u with last_activity := now })
        = true := by
      simp [checkDailyLimit, hf2]
    simp [videoHandler, hG, hge, hcheck]

/-- Witness for C6 at concrete inputs: the characterization evaluated on
the scenario store after three conversions, and the zero-limit rejection
on the initial store. -/
theorem daily_limit_spec_witness :
    (checkDailyLimit 1 3 0 exDB1 = true ↔ 3 ≤ dailyCount 1 0 exDB1) ∧
    (videoHandler 1 1 0 20 "f1" "v.mp4" 100 0 5 none exDB1).1 = .dailyLimitMsg :=
  ⟨daily_limit_spec.1 1 3 0 exDB1 exU (by decide),
   daily_limit_spec.2.2 1 1 20 "f1" "v.mp4" 100 0 5 none exDB1 exU (by decide) (by decide)⟩

/-- Witness for C1 at concrete inputs: account 2 is absent, a debit of 8
against balance 7 is rejected, a debit of 3 commits balance 4. -/
theorem updateCredits_atomic_spec_witness :
    updateCredits 2 1 5 exDB1 = .error .userNotFound ∧
    updateCredits 1 (-8) 5 exDB1 = .error .insufficientCredits ∧
    (∃ db1, updateCredits 1 (-3) 5 exDB1 = .ok (exU.credits + (-3), db1) ∧
      userCredits db1 1 = some (exU.credits + (-3)) ∧
      db1.conversions = exDB1.conversions ∧
      ∀ v, v ≠ 1 → findUser db1 v = findUser exDB1 v) := by
  refine ⟨(updateCredits_atomic_spec 2 1 5 exDB1).1 (by decide),
          (updateCredits_atomic_spec 1 (-8) 5 exDB1).2.1 exU (by decide) (by decide),
          (updateCredits_atomic_spec 1 (-3) 5 exDB1).2.2 exU (by decide) (by decide)⟩

/-- C8: with a nonnegative referral bonus, every sequence of operations
(account creation or refresh, debit/credit, referral award, admin reset)
applied to a store whose balances are all nonnegative leaves every
balance nonnegative — no operation commits a negative balance, so no
reader observes one; and for every sequence of debit/credit calls against
one existing account, the final balance equals the initial balance plus
the sum of the applied (non-rejected) deltas. -/
theorem ledger_nonneg_and_sum (bonus : Int) (now : Nat) :
    (∀ ops db, 0 ≤ bonus → creditsNonneg db →
        creditsNonneg (applyOps bonus now ops db)) ∧
    (∀ amts uid db u, findUser db uid = some u →
        userCredits (applyOps bonus now (amts.map (LedgerOp.adjust uid)) db) uid
          = some (u.credits + appliedSum uid now db amts)) :=
  ⟨fun ops db hb h => applyOps_nonneg bonus now hb ops db h,
   fun amts uid db u h => adjusts_sum bonus now amts uid db u h⟩

/-- Witness for C8 at concrete inputs: a mixed operation sequence on the
one-user store keeps balances nonnegative, and a debit/credit sequence
(with one rejected over-debit in the middle) lands on the initial balance
plus the applied deltas. -/
theorem ledger_nonneg_and_sum_witness :
    creditsNonneg (applyOps 5 9 [LedgerOp.create 2, LedgerOp.adjust 1 (-3),
      LedgerOp.refer (some 1) 2, LedgerOp.reset 1] exDB1) ∧
    userCredits (applyOps 5 9 (List.map (LedgerOp.adjust 1) [-3, -9, 2]) exDB1) 1
      = some (exU.credits + appliedSum 1 9 exDB1 [-3, -9, 2]) := by
  refine ⟨(ledger_nonneg_and_sum 5 9).1 _ exDB1 (by decide) ?_,
    (ledger_nonneg_and_sum 5 9).2 [-3, -9, 2] 1 exDB1 exU (by decide)⟩
  intro w hw
  rcases List.mem_singleton.mp hw with rfl
  decide

/-- C9: for each of the four resolution profiles, the ffmpeg settings
keep the video stream (libx264), take the height parsed from the profile
string, compute the width as ⌊height · 16 / 9⌋ at the fixed 16:9 aspect
ratio, and re-encode audio at the fixed bitrate 128 (aac); for the mp3
profile the video stream is dropped entirely and only audio is encoded
(libmp3lame at 192). -/
theorem convertVideo_profiles_spec (f : String)
    (hf : f ∈ ["360p", "480p", "720p", "1080p"]) :
    (∃ ht, jsParseInt (String.mk (jsReplaceFirst 'p' f.toList)) = some ht ∧
      convertVideo f =
        { noVideo := false, videoCodec := some "libx264", audioCodec := "aac",
          audioBitrate := 128, width := some (ht * 16 / 9), height := some ht,
          container := "mp4" }) ∧
    convertVideo "mp3" =
      { noVideo := true, videoCodec := none, audioCodec := "libmp3lame",
        audioBitrate := 192, width := none, height := none, container := "mp3" } := by
  refine ⟨?_, by decide⟩
  simp only [List.mem_cons, List.not_mem_nil, or_false] at hf
  rcases hf with h | h | h | h
  · subst h
    exact ⟨360, by decide, by decide⟩
  · subst h
    exact ⟨480, by decide, by decide⟩
  · subst h
    exact ⟨720, by decide, by decide⟩
  · subst h
    exact ⟨1080, by decide, by decide⟩

/-- Witness for C9 at the 720p profile: height 720, width 1280. -/
theorem convertVideo_profiles_spec_witness :
    (∃ ht, jsParseInt (String.mk (jsReplaceFirst 'p' "720p".toList)) = some ht ∧
      convertVideo "720p" =
        { noVideo := false, videoCodec := some "libx264", audioCodec := "aac",
          audioBitrate := 128, width := some (ht * 16 / 9), height := some ht,
          container := "mp4" }) ∧
    convertVideo "mp3" =
      { noVideo := true, videoCodec := none, audioCodec := "libmp3lame",
        audioBitrate := 192, width := none, height := none, container := "mp3" } :=
  convertVideo_profiles_spec "720p" (by decide)

end TgBot
